import Mathlib

/-!
Verification development for `xrecord.py`, a two-stage screen-capture /
transcode pipeline.  Python values are shallowly embedded:

* `timedelta(h, m, s, us)` becomes a total microsecond count (`Nat`);
* the diagnostic-stream regex `time=([0-9]{2}):([0-9]{2}):([0-9]{2}).([0-9]{2})`
  becomes an executable leftmost-match scanner over `List Char` (note the
  unescaped `.` in the source pattern: it matches any character except a
  newline, exactly as Python `re` does without `DOTALL`);
* a child process observed by a poll loop becomes the finite list of lines
  the loop reads before `poll()` reports the exit code, plus that exit code;
* the filesystem becomes a pair of boolean membership predicates on paths;
* exceptions become `Except` values threaded through each function.
-/

set_option maxRecDepth 100000

namespace XRecord

/-- Python `datetime.timedelta(hours, minutes, seconds, microseconds)`,
represented as its total number of microseconds. -/
def timedelta (hours minutes seconds microseconds : Nat) : Nat :=
  ((hours * 60 + minutes) * 60 + seconds) * 1000000 + microseconds

/-- The newline character, the one character Python `re`'s `.` does not match. -/
def newlineCh : Char := Char.ofNat 10

/-- The character class `[0-9]` of the source regex. -/
def is_digit (c : Char) : Bool := 48 ≤ c.toNat && c.toNat ≤ 57

/-- Numeric value of a two-digit group, as Python `int` applied to the two
captured digit characters. -/
def digitVal (a b : Char) : Nat := (a.toNat - 48) * 10 + (b.toNat - 48)

/-- Attempt the whole pattern
`time=([0-9]{2}):([0-9]{2}):([0-9]{2}).([0-9]{2})` anchored at one start
position, returning the four captured group values: the five literal
characters `time=`, three two-digit groups separated by literal colons, one
arbitrary non-newline character where the source regex has its unescaped
dot, and a final two-digit group. -/
def matchAt : List Char → Option (Nat × Nat × Nat × Nat)
  | 't' :: 'i' :: 'm' :: 'e' :: '=' :: a1 :: a2 :: ':' :: b1 :: b2 :: ':' ::
      c1 :: c2 :: sep :: d1 :: d2 :: _ =>
    if is_digit a1 && is_digit a2 && is_digit b1 && is_digit b2 &&
        is_digit c1 && is_digit c2 && is_digit d1 && is_digit d2 &&
        sep != newlineCh then
      some (digitVal a1 a2, digitVal b1 b2, digitVal c1 c2, digitVal d1 d2)
    else none
  | _ => none

/-- `re.search`: try the pattern at each start position from the left,
returning the leftmost full match. -/
def searchTime : List Char → Option (Nat × Nat × Nat × Nat)
  | [] => none
  | c :: rest =>
    match matchAt (c :: rest) with
    | some g => some g
    | none => searchTime rest

/-- `extract_ffmpeg_time(line)` (src/xrecord.py lines 73-81): search the line
for the progress pattern; on a match build
`timedelta(hours=g0, minutes=g1, seconds=g2, microseconds=g3*10000)`;
otherwise return `None`. -/
def extract_ffmpeg_time (line : String) : Option Nat :=
  (searchTime line.toList).map fun g =>
    timedelta g.1 g.2.1 g.2.2.1 (g.2.2.2 * 10000)

/-- Modelled from the spec: the fixed timestamp pattern
`time=HH:MM:SS.CC` with a literal dot, as the spec's words describe it —
attempted at one position.  This is the spec-side reading of the pattern,
kept separate from `matchAt`, which embeds the source regex with its
unescaped dot. -/
def matchDotAt : List Char → Option (Nat × Nat × Nat × Nat)
  | 't' :: 'i' :: 'm' :: 'e' :: '=' :: a1 :: a2 :: ':' :: b1 :: b2 :: ':' ::
      c1 :: c2 :: '.' :: d1 :: d2 :: _ =>
    if is_digit a1 && is_digit a2 && is_digit b1 && is_digit b2 &&
        is_digit c1 && is_digit c2 && is_digit d1 && is_digit d2 then
      some (digitVal a1 a2, digitVal b1 b2, digitVal c1 c2, digitVal d1 d2)
    else none
  | _ => none

/-- Modelled from the spec: whether a line contains the fixed literal-dot
timestamp pattern `time=HH:MM:SS.CC` at some position. -/
def hasDotStamp : List Char → Bool
  | [] => false
  | c :: rest => (matchDotAt (c :: rest)).isSome || hasDotStamp rest

/-- Modelled from the spec: whether a line contains the fixed timestamp
pattern, in the spec's literal-dot reading. -/
def containsFixedStamp (line : String) : Bool :=
  hasDotStamp line.toList

/-! ### Process supervision (`run_with_signal_forwarding`, lines 105-125) -/

/-- Disposition of one OS signal: `SIG_DFL`, the supervisor's `term_handler`
closure, or anything else. -/
inductive Handler
  | dfl
  | forwarder
  | other
deriving DecidableEq

/-- The process-wide dispositions of `SIGINT` and `SIGTERM`. -/
structure SigState where
  sigint : Handler
  sigterm : Handler
deriving DecidableEq

/-- `run_with_signal_forwarding(call, wait_fun=..., **kwargs)`
(src/xrecord.py lines 105-125).  The spawned child is summarized by the exit
code `exitCode` its `returncode` holds once the wait concludes; `wait` stands
for the `try` body — `proc.wait()` when no `wait_fun` is given, otherwise
`wait_fun(proc)` — and may update global signal state and may raise (an
`Except.error` result).  The `finally` block restores both handlers to
`SIG_DFL` on every path before the pair `(proc, result)` is returned. -/
def run_with_signal_forwarding (ε β : Type) (exitCode : Int) (s0 : SigState)
    (wait : SigState → SigState × Except ε β) : SigState × Int × Except ε β :=
  let s1 : SigState := { s0 with sigint := Handler.forwarder }
  let s2 : SigState := { s1 with sigterm := Handler.forwarder }
  let body := wait s2
  let s3 : SigState := { body.1 with sigint := Handler.dfl }
  let s4 : SigState := { s3 with sigterm := Handler.dfl }
  (s4, exitCode, body.2)

/-! ### Capture stage (`ffmpeg_capture_duration` and `record`, lines 94-151) -/

/-- The poll loop of `ffmpeg_capture_duration` (lines 94-103): the child's
lines read while `returncode` was `None`, folded into the running
`duration` accumulator (`acc` starts as `None`). -/
def ffmpeg_capture_duration : List String → Option Nat → Option Nat
  | [], acc => acc
  | l :: rest, acc =>
    match extract_ffmpeg_time l with
    | some t => ffmpeg_capture_duration rest (some t)
    | none => ffmpeg_capture_duration rest acc

/-- `subprocess.CalledProcessError(returncode, cmd)`. -/
structure CalledProcessError where
  returncode : Int
  cmd : List String
deriving DecidableEq

instance {ε α : Type} [DecidableEq ε] [DecidableEq α] :
    DecidableEq (Except ε α)
  | Except.error a, Except.error b =>
      if h : a = b then isTrue (by rw [h])
      else isFalse (fun hh => h (by cases hh; rfl))
  | Except.error _, Except.ok _ => isFalse (fun hh => Except.noConfusion hh)
  | Except.ok _, Except.error _ => isFalse (fun hh => Except.noConfusion hh)
  | Except.ok a, Except.ok b =>
      if h : a = b then isTrue (by rw [h])
      else isFalse (fun hh => h (by cases hh; rfl))

/-- (x, y, width, height) as discovered by `discover_geometry`. -/
structure Geometry where
  x : Nat
  y : Nat
  w : Nat
  h : Nat
deriving DecidableEq

/-- The `ffmpeg_call` list built by `record` (lines 129-143). -/
def record_call (cachefile : String) (framerate : Nat) (display : String)
    (g : Geometry) : List String :=
  ["ffmpeg", "-nostdin",
   "-video_size", toString g.w ++ "x" ++ toString g.h,
   "-framerate", toString framerate,
   "-f", "x11grab",
   "-i", display ++ "+" ++ toString g.x ++ "," ++ toString g.y,
   "-c:v", "libx264",
   "-qp", "0",
   "-preset", "ultrafast",
   cachefile]

/-- `record(cachefile, framerate, display, geometry)` (lines 128-151): run the
capture command under the supervisor with `ffmpeg_capture_duration` as the
poll strategy; accept exit codes in `[0, 255]`, raising
`CalledProcessError(returncode, ffmpeg_call)` for any other code; return the
last known duration on success.  `obs` lists the diagnostic lines the poll
loop read; `exitCode` is the child's final exit code. -/
def record (cachefile : String) (framerate : Nat) (display : String)
    (g : Geometry) (obs : List String) (exitCode : Int) (s0 : SigState) :
    SigState × Except CalledProcessError (Option Nat) :=
  let call := record_call cachefile framerate display g
  let run := run_with_signal_forwarding CalledProcessError (Option Nat)
      exitCode s0 (fun s => (s, Except.ok (ffmpeg_capture_duration obs none)))
  match run.2.2 with
  | Except.error e => (run.1, Except.error e)
  | Except.ok duration =>
    if exitCode = 0 ∨ exitCode = 255 then (run.1, Except.ok duration)
    else (run.1, Except.error ⟨exitCode, call⟩)

/-! ### Encode stage (`ffmpeg_progress` and `encode`, lines 84-91, 166-194) -/

/-- The loop body of `ffmpeg_progress` (lines 86-91): for each line read
while `returncode` was `None`, a parsed timestamp produces one callback
invocation; once `poll` reports exit, `progress_cb(None)` is delivered. -/
def progress_iter : List String → List (Option Nat)
  | [] => [none]
  | l :: rest =>
    match extract_ffmpeg_time l with
    | some t => some t :: progress_iter rest
    | none => progress_iter rest

/-- `ffmpeg_progress(progress_cb, proc)` (lines 84-91), abstracted over the
callback: the ordered list of arguments passed to `progress_cb` — the
initial `timedelta()` sample emitted before any line is read, then the loop's
samples, then the final `None`. -/
def ffmpeg_progress (obs : List String) : List (Option Nat) :=
  some (timedelta 0 0 0 0) :: progress_iter obs

/-- A successfully constructed `functools.partial(progress_cb, duration)`
object: `functools.partial.__new__` checks that its first argument is
callable, so an existing partial always wraps a real function — the
wrapped callable plus the pre-bound first argument. -/
structure BoundCallback where
  fn : Option Nat → Option Nat → Unit
  boundDuration : Option Nat

/-- A Python runtime exception that is not a `CalledProcessError`. -/
inductive PyErr
  | typeError
deriving DecidableEq

/-- `functools.partial(fn, d)`: CPython checks callability in `__new__`
and raises `TypeError("the first argument must be callable")` at
construction when `fn` is the `None` object; otherwise it returns a real
partial object binding `d`. -/
def bindProgressCb (fn : Option (Option Nat → Option Nat → Unit))
    (d : Option Nat) : Except PyErr BoundCallback :=
  match fn with
  | none => Except.error PyErr.typeError
  | some f => Except.ok ⟨f, d⟩

/-- Deliver the samples of `ffmpeg_progress` to the callback one by one
(each invocation is `partial(arg)`, i.e. `fn(boundDuration, arg)`). -/
def runCallbacks (p : BoundCallback) : List (Option Nat) → Unit
  | [] => ()
  | a :: rest =>
    let _ := p.fn p.boundDuration a
    runCallbacks p rest

/-- The `ffmpeg_call` list built by `encode` (lines 167-181): base options,
then each flag-shaped key of the config section followed by its value when
the value is non-empty, then `"-"`. -/
def encode_call (source_file : String) (config_section : List (String × String)) :
    List String :=
  ["ffmpeg", "-nostdin", "-i", source_file]
    ++ (config_section.flatMap fun kv =>
          if kv.1.startsWith "-" then
            kv.1 :: (if kv.2 ≠ "" then [kv.2] else [])
          else [])
    ++ ["-"]

/-- The `kwargs` dictionary of `encode` (lines 183-191): whether `stderr`
is a pipe (vs `DEVNULL`) and whether a `wait_fun` was installed. -/
structure EncodeKwargs where
  stderrPiped : Bool
  hasWaitFun : Bool
deriving DecidableEq

/-- Lines 183-191: default `stderr=DEVNULL` and no `wait_fun`; if
`progress_cb is not None`, switch `stderr` to a pipe and install the
`ffmpeg_progress` poll loop. -/
def encode_kwargs (progress_cb : Option BoundCallback) : EncodeKwargs :=
  match progress_cb with
  | none => ⟨false, false⟩
  | some _ => ⟨true, true⟩

/-- An exception escaping `encode`. -/
inductive EncodeError
  | calledProcess (e : CalledProcessError)
  | uncaught (e : PyErr)
deriving DecidableEq

/-- `encode(source_file, output_file, config_section, progress_cb)`
(lines 166-194): run the transcode command under the supervisor — with the
`ffmpeg_progress` poll loop delivering samples to `progress_cb` when one is
supplied — then raise `CalledProcessError(returncode, ffmpeg_call)` unless
the exit code is exactly 0.  An exception raised inside the poll loop
propagates (after handler restoration) before the exit code is examined. -/
def encode (source_file : String) (config_section : List (String × String))
    (progress_cb : Option BoundCallback) (s0 : SigState) (exitCode : Int)
    (obs : List String) : SigState × Except EncodeError Unit :=
  let call := encode_call source_file config_section
  let wait : SigState → SigState × Except PyErr Unit :=
    match progress_cb with
    | none => fun s => (s, Except.ok ())
    | some p => fun s => (s, Except.ok (runCallbacks p (ffmpeg_progress obs)))
  let run := run_with_signal_forwarding PyErr Unit exitCode s0 wait
  match run.2.2 with
  | Except.error e => (run.1, Except.error (EncodeError.uncaught e))
  | Except.ok _ =>
    if exitCode ≠ 0 then
      (run.1, Except.error (EncodeError.calledProcess ⟨exitCode, call⟩))
    else (run.1, Except.ok ())

/-! ### Output-file allocation (`open_output_file`, lines 154-163)

The filesystem visible to the allocator is a boolean membership predicate on
paths; `open(path, "xb")` succeeds exactly when the path is not yet present.
-/

/-- The opening-brace character. -/
def lbrace : Char := Char.ofNat 123

/-- The closing-brace character. -/
def rbrace : Char := Char.ofNat 125

/-- Modelled subset of Python `str.format` with a single positional
argument, covering the pattern shapes the program uses (the default output
pattern is `"~/out-" ++ "\x7b\x7d" ++ ".ogv"`): an empty replacement field
substitutes the argument, doubled braces escape to a literal brace, and any
other use of a brace — including a trailing single brace — is a format
error (`none`), as `str.format` raises on it. -/
def pyFormatAux (arg : List Char) : List Char → Option (List Char)
  | [] => some []
  | c :: rest =>
    if c = lbrace then
      match rest with
      | c2 :: rest2 =>
        if c2 = lbrace then (pyFormatAux arg rest2).map (fun t => lbrace :: t)
        else if c2 = rbrace then (pyFormatAux arg rest2).map (fun t => arg ++ t)
        else none
      | [] => none
    else if c = rbrace then
      match rest with
      | c2 :: rest2 =>
        if c2 = rbrace then (pyFormatAux arg rest2).map (fun t => rbrace :: t)
        else none
      | [] => none
    else (pyFormatAux arg rest).map (fun t => c :: t)

/-- `pattern.format(i)` for a natural number `i`. -/
def pyFormat (pattern : String) (i : Nat) : Option String :=
  (pyFormatAux (Nat.repr i).toList pattern.toList).map String.mk

/-- Whether a character sequence is free of brace characters, so that
`str.format` reproduces it verbatim. -/
def braceFree (l : List Char) : Bool :=
  l.all fun c => !(c == lbrace) && !(c == rbrace)

/-- The path obtained by substituting index `i` between the brace-free
pieces `A` and `B` of an output pattern. -/
def slotPath (A B : List Char) (i : Nat) : String :=
  String.mk (A ++ (Nat.repr i).toList ++ B)

/-- Errors escaping `open_output_file`: `FileExistsError` (raised either by
exclusive-create on an existing path, or with the whole pattern as payload
when all 1000 substitutions are taken), and the `ValueError` that
`str.format` raises on a malformed pattern. -/
inductive AllocError
  | fileExists (path : String)
  | formatError
deriving DecidableEq

/-- The `for i in range(1000)` loop of `open_output_file` (lines 158-163):
try `open(pattern.format(i), "xb")` for each index, continuing on
`FileExistsError`, and raise `FileExistsError(pattern)` when the range is
exhausted. -/
def alloc_try (pattern : String) (fs : String → Bool) :
    List Nat → Except AllocError String
  | [] => Except.error (AllocError.fileExists pattern)
  | i :: rest =>
    match pyFormat pattern i with
    | none => Except.error AllocError.formatError
    | some path =>
      if fs path then alloc_try pattern fs rest else Except.ok path

/-- `open_output_file(pattern)` (lines 154-163): if the pattern contains no
opening brace, exclusive-create exactly that path; otherwise run the
0..999 substitution loop. -/
def open_output_file (pattern : String) (fs : String → Bool) :
    Except AllocError String :=
  if !(pattern.toList.contains lbrace) then
    if fs pattern then Except.error (AllocError.fileExists pattern)
    else Except.ok pattern
  else alloc_try pattern fs (List.range 1000)

/-! ### Pipeline driver (`__main__`, lines 209-277) -/

/-- The filesystem as the driver sees it: membership predicates for regular
files and directories. -/
structure FS where
  files : String → Bool
  dirs : String → Bool

/-- `os.makedirs` for the cache directory. -/
def FS.mkdir (fs : FS) (d : String) : FS :=
  { fs with dirs := fun p => p == d || fs.dirs p }

/-- Creation of a regular file (exclusive-create open, or a child process
writing its output file). -/
def FS.createFile (fs : FS) (f : String) : FS :=
  { fs with files := fun p => p == f || fs.files p }

/-- `os.unlink`. -/
def FS.unlink (fs : FS) (f : String) : FS :=
  { fs with files := fun p => if p == f then false else fs.files p }

/-- Whether path `p` is the directory `d` itself or lies underneath it. -/
def underDir (d p : String) : Bool :=
  p == d || (d ++ "/").toList.isPrefixOf p.toList

/-- `shutil.rmtree(d)`: removes `d` and everything under it. -/
def FS.rmtree (fs : FS) (d : String) : FS :=
  { files := fun p => if underDir d p then false else fs.files p,
    dirs := fun p => if underDir d p then false else fs.dirs p }

/-- `INITIAL_FILE_NAME` (line 25). -/
def INITIAL_FILE_NAME : String := "first.mkv"

/-- `os.path.join(cachedir, INITIAL_FILE_NAME)` (line 262). -/
def recording_filename (cachedir : String) : String :=
  cachedir ++ "/" ++ INITIAL_FILE_NAME

/-- The rendering side effect of `print_progress` (lines 197-206) is
abstracted to `Unit`; no claim inspects the rendered text. -/
def print_progress (_duration : Option Nat) (_time : Option Nat) : Unit := ()

/-- Lines 257-260: `progress_cb` is the renderer when `args.progress` holds
and the `None` object otherwise. -/
def driver_progress_cb (progressFlag : Bool) :
    Option (Option Nat → Option Nat → Unit) :=
  if progressFlag then some print_progress else none

/-- Line 274: the construction `functools.partial(progress_cb, duration)`,
evaluated as an argument of the `encode(...)` call — either the partial
object handed to `encode`, or the `TypeError` the construction itself
raises when `progress_cb` is the `None` object (progress disabled). -/
def driver_encode_arg (progressFlag : Bool) (duration : Option Nat) :
    Except PyErr BoundCallback :=
  bindProgressCb (driver_progress_cb progressFlag) duration

/-- An exception escaping the driver, tagged by the operation that raised
it (`pyRaise` is the `TypeError` raised while constructing the partial at
line 274, inside the `with` block but after the capture `try`). -/
inductive PipeErr
  | alloc (e : AllocError)
  | capture (e : CalledProcessError)
  | pyRaise (e : PyErr)
  | encodeFail (e : EncodeError)
deriving DecidableEq

/-- The driver body from `cachedir = get_cachedir(config)` (line 255) to
`shutil.rmtree(cachedir)` (line 277).  `cachedirName` abstracts the
date-and-pid token path `get_cachedir` builds before `os.makedirs`;
`capObs`/`capExit` and `encObs`/`encExit` summarize the two child
processes.  Control flow mirrors the source: exclusive-create the output
handle; run `record` inside `try`, unlinking the output and re-raising on
any failure; construct the pre-bound partial (which itself raises when
`progress_cb` is `None`) and run `encode` with it; remove the cache tree
only after the `with` block exits normally. -/
def pipeline (fs0 : FS) (cachedirName outPattern : String)
    (progressFlag : Bool) (framerate : Nat) (display : String) (g : Geometry)
    (capObs : List String) (capExit : Int)
    (config_section : List (String × String))
    (encObs : List String) (encExit : Int) (s0 : SigState) :
    FS × Except PipeErr Unit :=
  let fs1 := FS.mkdir fs0 cachedirName
  match open_output_file outPattern fs1.files with
  | Except.error e => (fs1, Except.error (PipeErr.alloc e))
  | Except.ok dest =>
    let fs2 := FS.createFile fs1 dest
    let recFile := recording_filename cachedirName
    let fs3 := FS.createFile fs2 recFile
    let rec1 := record recFile framerate display g capObs capExit s0
    match rec1.2 with
    | Except.error e => (FS.unlink fs3 dest, Except.error (PipeErr.capture e))
    | Except.ok duration =>
      match driver_encode_arg progressFlag duration with
      | Except.error e => (fs3, Except.error (PipeErr.pyRaise e))
      | Except.ok p =>
        let enc := encode recFile config_section (some p) rec1.1 encExit
            encObs
        match enc.2 with
        | Except.error e => (fs3, Except.error (PipeErr.encodeFail e))
        | Except.ok _ => (FS.rmtree fs3 cachedirName, Except.ok ())

/-!
## Theorems

Helper lemmas first (shared between claims), then one theorem per claim.
-/

theorem getLast?_cons_or {α : Type} (t : α) (L : List α) (acc : Option α) :
    ((t :: L).getLast?).or acc = (L.getLast?).or (some t) := by
  cases L with
  | nil => rfl
  | cons b L' =>
    rw [List.getLast?_cons_cons]
    have hs : ((b :: L').getLast?).isSome := by
      rw [List.getLast?_isSome]
      simp
    obtain ⟨x, hx⟩ := Option.isSome_iff_exists.mp hs
    rw [hx]
    rfl

theorem capture_duration_eq (obs : List String) (acc : Option Nat) :
    ffmpeg_capture_duration obs acc =
      ((obs.filterMap extract_ffmpeg_time).getLast?).or acc := by
  induction obs generalizing acc with
  | nil => simp [ffmpeg_capture_duration]
  | cons l rest ih =>
    cases h : extract_ffmpeg_time l with
    | some t =>
      simp only [List.filterMap_cons, h, ffmpeg_capture_duration]
      rw [ih, getLast?_cons_or]
    | none =>
      simp only [List.filterMap_cons, h, ffmpeg_capture_duration]
      exact ih acc

theorem record_result (cachefile : String) (framerate : Nat) (display : String)
    (g : Geometry) (obs : List String) (exitCode : Int) (s0 : SigState) :
    (record cachefile framerate display g obs exitCode s0).2 =
      if exitCode = 0 ∨ exitCode = 255 then
        Except.ok ((obs.filterMap extract_ffmpeg_time).getLast?)
      else
        Except.error ⟨exitCode, record_call cachefile framerate display g⟩ := by
  by_cases hc : exitCode = 0 ∨ exitCode = 255 <;>
    simp [record, run_with_signal_forwarding, capture_duration_eq, hc]

/-- Claim C5: `record` treats exactly the exit statuses 0 and 255 (the code
ffmpeg produces after a graceful-terminate request) as success, returning
the last parsed duration (`none` if no time line was ever parsed); every
other exit code raises `CalledProcessError` carrying the command list and
the exit code. -/
theorem record_exit_policy (cachefile : String) (framerate : Nat)
    (display : String) (g : Geometry) (obs : List String) (exitCode : Int)
    (s0 : SigState) :
    (record cachefile framerate display g obs exitCode s0).2 =
      if exitCode = 0 ∨ exitCode = 255 then
        Except.ok ((obs.filterMap extract_ffmpeg_time).getLast?)
      else
        Except.error ⟨exitCode, record_call cachefile framerate display g⟩ :=
  record_result cachefile framerate display g obs exitCode s0

/-- Claim C7: whatever the `try` body does — plain wait, a poll strategy
returning a value, or either of them raising — `run_with_signal_forwarding`
leaves both the `SIGINT` and the `SIGTERM` disposition at `SIG_DFL`, and the
body's outcome (value or exception) passes through unchanged. -/
theorem signal_handlers_restored (ε β : Type) (exitCode : Int) (s0 : SigState)
    (wait : SigState → SigState × Except ε β) :
    (run_with_signal_forwarding ε β exitCode s0 wait).1 =
      { sigint := Handler.dfl, sigterm := Handler.dfl } ∧
    (run_with_signal_forwarding ε β exitCode s0 wait).2.2 =
      (wait { sigint := Handler.forwarder, sigterm := Handler.forwarder }).2 :=
  ⟨rfl, rfl⟩

theorem progress_iter_eq (obs : List String) :
    progress_iter obs =
      (obs.filterMap extract_ffmpeg_time).map some ++ [none] := by
  induction obs with
  | nil => rfl
  | cons l rest ih =>
    cases h : extract_ffmpeg_time l with
    | some t =>
      simp only [List.filterMap_cons, h, progress_iter, ih, List.map_cons,
        List.cons_append]
    | none =>
      simp only [List.filterMap_cons, h, progress_iter, ih]

theorem ffmpeg_progress_eq (obs : List String) :
    ffmpeg_progress obs =
      some (timedelta 0 0 0 0) ::
        ((obs.filterMap extract_ffmpeg_time).map some ++ [none]) := by
  simp only [ffmpeg_progress, progress_iter_eq]

/-- Claim C9: with a progress callback present, the callback receives the
zero-elapsed sample first (before any diagnostic line is read), then exactly
one sample per line from which a timestamp was extracted, in order, and
finally `None` exactly once, as the last call. -/
theorem progress_callback_sequence (obs : List String) :
    ffmpeg_progress obs =
      some (timedelta 0 0 0 0) ::
        ((obs.filterMap extract_ffmpeg_time).map some ++ [none]) ∧
    (ffmpeg_progress obs).head? = some (some (timedelta 0 0 0 0)) ∧
    (ffmpeg_progress obs).getLast? = some none ∧
    (ffmpeg_progress obs).count none = 1 := by
  refine ⟨ffmpeg_progress_eq obs, ?_, ?_, ?_⟩
  · rw [ffmpeg_progress_eq]
    rfl
  · rw [ffmpeg_progress_eq, ← List.cons_append, List.getLast?_concat]
  · rw [ffmpeg_progress_eq]
    rw [List.count_cons, List.count_append]
    have h1 : ((obs.filterMap extract_ffmpeg_time).map some).count
        (none : Option Nat) = 0 := by
      rw [List.count_eq_zero]
      simp
    simp [h1]

/-- Claim C6: for every callback argument — a real partial object or none
at all — `encode` succeeds exactly when the child exits with code 0 and
raises `CalledProcessError(returncode, ffmpeg_call)` for every other exit
status — including 255, the graceful-terminate exit that `record` accepts
as success (the asymmetry restated in the second conjunct). -/
theorem encode_exit_policy (source : String) (sec : List (String × String))
    (cb : Option BoundCallback) (s0 : SigState) (exitCode : Int)
    (obs : List String) :
    ((encode source sec cb s0 exitCode obs).2 =
        if exitCode = 0 then Except.ok ()
        else Except.error (EncodeError.calledProcess
          ⟨exitCode, encode_call source sec⟩)) ∧
    (∀ (cf : String) (fr : Nat) (disp : String) (g : Geometry)
        (obs2 : List String) (s1 : SigState),
      (record cf fr disp g obs2 255 s1).2 =
        Except.ok ((obs2.filterMap extract_ffmpeg_time).getLast?)) := by
  constructor
  · rcases cb with _ | p <;>
      by_cases hc : exitCode = 0 <;>
        simp [encode, run_with_signal_forwarding, hc]
  · intro cf fr disp g obs2 s1
    rw [record_result]
    simp

/-- Claim C6 witness: an encode child terminated by the graceful exit
status 255 is reported as `CalledProcessError`, while a capture child with
the same status succeeds. -/
theorem encode_exit_policy_witness :
    (encode "src" [] none ⟨Handler.dfl, Handler.dfl⟩ 255 []).2 =
      Except.error (EncodeError.calledProcess ⟨255, encode_call "src" []⟩) ∧
    (record "f" 25 ":0" ⟨0, 0, 1, 1⟩ [] 255 ⟨Handler.dfl, Handler.dfl⟩).2 =
      Except.ok none := by
  have h := encode_exit_policy "src" [] none ⟨Handler.dfl, Handler.dfl⟩ 255 []
  refine ⟨?_, ?_⟩
  · rw [h.1]
    rfl
  · have h2 := h.2 "f" 25 ":0" ⟨0, 0, 1, 1⟩ [] ⟨Handler.dfl, Handler.dfl⟩
    simpa using h2

/-- Claim C10 counterexample: with progress disabled and a successful
capture, `functools.partial(None, duration)` raises `TypeError` already at
construction (line 274, during evaluation of `encode`'s arguments), so the
pipeline concludes with that error and `encode` is never handed the partial
— contrary to the claim that `encode` receives it, takes the piped branch,
and its poll loop later calls `None`. -/
theorem driver_progress_counterexample :
    driver_encode_arg false (some 0) = Except.error PyErr.typeError ∧
    (pipeline ⟨fun _ => false, fun _ => false⟩ "cache" "out" false 25 ":0"
        ⟨0, 0, 1, 1⟩ ["time=00:00:01.00"] 0 [] [] 0
        ⟨Handler.dfl, Handler.dfl⟩).2 =
      Except.error (PipeErr.pyRaise PyErr.typeError) :=
  ⟨rfl, by decide⟩

/-- Claim C10 (amended): with progress disabled, the driver's
`functools.partial(None, duration)` raises `TypeError` at construction —
after a successful capture and before `encode` is entered — so `encode`
never runs on that path; with progress enabled the driver hands `encode` a
real partial object wrapping the renderer.  Every callback the driver ever
passes to `encode` is therefore a real object, never the `None` object, and
`encode`'s absent-callback plain-wait branch is unreachable from the
driver. -/
theorem driver_progress_bound_object (d : Option Nat) :
    driver_encode_arg false d = Except.error PyErr.typeError ∧
    driver_encode_arg true d = Except.ok ⟨print_progress, d⟩ ∧
    (∀ p : BoundCallback, encode_kwargs (some p) = ⟨true, true⟩) ∧
    (∀ (fs0 : FS) (cd outP : String) (fr : Nat) (disp : String)
        (g : Geometry) (capObs : List String) (capExit : Int)
        (sec : List (String × String)) (encObs : List String)
        (encExit : Int) (s0 : SigState) (dur : Option Nat) (dest : String),
      open_output_file outP (FS.mkdir fs0 cd).files = Except.ok dest →
      (record (recording_filename cd) fr disp g capObs capExit s0).2 =
        Except.ok dur →
      (pipeline fs0 cd outP false fr disp g capObs capExit sec encObs
        encExit s0).2 = Except.error (PipeErr.pyRaise PyErr.typeError)) := by
  refine ⟨rfl, rfl, fun p => rfl, ?_⟩
  intro fs0 cd outP fr disp g capObs capExit sec encObs encExit s0 dur dest
    hdest hrec
  simp only [pipeline, hdest, hrec]
  rfl

/-- Claim C10 witness: a concrete no-progress run whose capture succeeds
ends in the construction `TypeError` before `encode` is reached. -/
theorem driver_progress_bound_object_witness :
    (pipeline ⟨fun _ => false, fun _ => false⟩ "cache" "out" false 25 ":0"
        ⟨0, 0, 1, 1⟩ [] 0 [] [] 0 ⟨Handler.dfl, Handler.dfl⟩).2 =
      Except.error (PipeErr.pyRaise PyErr.typeError) :=
  (driver_progress_bound_object none).2.2.2 ⟨fun _ => false, fun _ => false⟩
    "cache" "out" 25 ":0" ⟨0, 0, 1, 1⟩ [] 0 [] [] 0
    ⟨Handler.dfl, Handler.dfl⟩ none "out" (by decide) (by decide)

theorem ffmpeg_progress_filterMap_id (obs : List String) :
    (ffmpeg_progress obs).filterMap id =
      timedelta 0 0 0 0 :: obs.filterMap extract_ffmpeg_time := by
  rw [ffmpeg_progress_eq]
  simp [List.filterMap_append]

/-- Claim C3 counterexample: for a child that emits the timestamps
`00:00:05.00` then `00:00:01.00`, the delivered elapsed values are
`[0, 5s, 1s]` — not non-decreasing — and the 5-second sample exceeds a
discovered capture duration of 2 seconds, with no guard in the code. -/
theorem progress_monotone_counterexample :
    (ffmpeg_progress ["time=00:00:05.00", "time=00:00:01.00"]).filterMap id =
      [0, timedelta 0 0 5 0, timedelta 0 0 1 0] ∧
    ¬ List.Chain' (fun a b => a ≤ b)
        ((ffmpeg_progress ["time=00:00:05.00", "time=00:00:01.00"]).filterMap
          id) ∧
    ¬ (∀ t ∈ (ffmpeg_progress
          ["time=00:00:05.00", "time=00:00:01.00"]).filterMap id,
        t ≤ timedelta 0 0 2 0) := by
  have he : (ffmpeg_progress
      ["time=00:00:05.00", "time=00:00:01.00"]).filterMap id =
        [0, timedelta 0 0 5 0, timedelta 0 0 1 0] := by decide
  refine ⟨he, ?_, ?_⟩
  · rw [he]
    intro hch
    have h1 := (List.chain'_cons.mp hch).2
    have h2 := (List.chain'_cons.mp h1).1
    simp [timedelta] at h2
  · intro hall
    have h3 := hall (timedelta 0 0 5 0) (by rw [he]; simp)
    simp [timedelta] at h3

/-- Claim C3 (amended): the delivered stream is terminated by exactly one
`none` sample, which comes last; the elapsed values are the zero sample
followed by exactly the timestamps parsed from the child's lines, in
emission order — so they are non-decreasing, and bounded by the discovered
capture duration, only when the child's own emitted timestamps are. -/
theorem progress_stream_amended (obs : List String) :
    (ffmpeg_progress obs).getLast? = some none ∧
    (ffmpeg_progress obs).count none = 1 ∧
    (ffmpeg_progress obs).filterMap id =
      timedelta 0 0 0 0 :: obs.filterMap extract_ffmpeg_time ∧
    (List.Chain' (fun a b => a ≤ b) (obs.filterMap extract_ffmpeg_time) →
      List.Chain' (fun a b => a ≤ b) ((ffmpeg_progress obs).filterMap id)) ∧
    (∀ D : Nat, (∀ t ∈ obs.filterMap extract_ffmpeg_time, t ≤ D) →
      ∀ t ∈ (ffmpeg_progress obs).filterMap id, t ≤ D) := by
  refine ⟨?_, ?_, ffmpeg_progress_filterMap_id obs, ?_, ?_⟩
  · rw [ffmpeg_progress_eq, ← List.cons_append, List.getLast?_concat]
  · rw [ffmpeg_progress_eq]
    rw [List.count_cons, List.count_append]
    have h1 : ((obs.filterMap extract_ffmpeg_time).map some).count
        (none : Option Nat) = 0 := by
      rw [List.count_eq_zero]
      simp
    simp [h1]
  · intro hchain
    rw [ffmpeg_progress_filterMap_id]
    cases h : obs.filterMap extract_ffmpeg_time with
    | nil => simp
    | cons b L =>
      rw [List.chain'_cons]
      exact ⟨Nat.zero_le b, h ▸ hchain⟩
  · intro D hbound t ht
    rw [ffmpeg_progress_filterMap_id] at ht
    rcases List.mem_cons.mp ht with rfl | hmem
    · exact Nat.zero_le D
    · exact hbound t hmem

/-- Claim C3 witness: for a child emitting one 1-second timestamp, the
delivered elapsed values are non-decreasing and bounded by a 5-second
capture duration. -/
theorem progress_stream_witness :
    List.Chain' (fun a b => a ≤ b)
      ((ffmpeg_progress ["time=00:00:01.00"]).filterMap id) ∧
    (∀ t ∈ (ffmpeg_progress ["time=00:00:01.00"]).filterMap id,
      t ≤ timedelta 0 0 5 0) :=
  ⟨(progress_stream_amended ["time=00:00:01.00"]).2.2.2.1 (by
      have h : List.filterMap extract_ffmpeg_time ["time=00:00:01.00"] =
          [timedelta 0 0 1 0] := by decide
      rw [h]
      exact List.chain'_singleton _),
   (progress_stream_amended ["time=00:00:01.00"]).2.2.2.2 (timedelta 0 0 5 0)
     (by decide)⟩

/-- Claim C1 counterexample: with a capture child exiting with code 1, the
pipeline concludes with an error, yet the cache directory still exists
afterwards — `shutil.rmtree(cachedir)` is the last statement of the driver
and is skipped whenever either stage raises. -/
theorem pipeline_cachedir_counterexample :
    ((pipeline ⟨fun _ => false, fun _ => false⟩ "cache" "out" true 25 ":0"
        ⟨0, 0, 1, 1⟩ [] 1 [] [] 0 ⟨Handler.dfl, Handler.dfl⟩).2 ≠
      Except.ok ()) ∧
    (pipeline ⟨fun _ => false, fun _ => false⟩ "cache" "out" true 25 ":0"
        ⟨0, 0, 1, 1⟩ [] 1 [] [] 0 ⟨Handler.dfl, Handler.dfl⟩).1.dirs "cache" =
      true := by
  exact ⟨by decide, by decide⟩

/-- Claim C1 (amended): the cache directory and everything under it are
removed when both stages succeed; when the capture stage or the encode
stage raises, the driver skips `shutil.rmtree`, so the cache directory
still exists when the error reaches the caller. -/
theorem pipeline_cachedir_amended (fs0 : FS) (cd outP : String) (flag : Bool)
    (fr : Nat) (disp : String) (g : Geometry) (capObs : List String)
    (capExit : Int) (sec : List (String × String)) (encObs : List String)
    (encExit : Int) (s0 : SigState) (fsF : FS) (res : Except PipeErr Unit)
    (hrun : pipeline fs0 cd outP flag fr disp g capObs capExit sec encObs
      encExit s0 = (fsF, res)) :
    (res = Except.ok () →
      ∀ p, underDir cd p = true → (fsF.files p = false ∧ fsF.dirs p = false)) ∧
    (∀ e, res = Except.error (PipeErr.capture e) → fsF.dirs cd = true) ∧
    (∀ e, res = Except.error (PipeErr.encodeFail e) → fsF.dirs cd = true) := by
  have hf : fsF = (pipeline fs0 cd outP flag fr disp g capObs capExit sec
      encObs encExit s0).1 := by rw [hrun]
  have hr : res = (pipeline fs0 cd outP flag fr disp g capObs capExit sec
      encObs encExit s0).2 := by rw [hrun]
  subst hf
  subst hr
  clear hrun
  rcases h1 : open_output_file outP (FS.mkdir fs0 cd).files with e1 | dest
  · simp [pipeline, h1]
  · rcases h2 : (record (recording_filename cd) fr disp g capObs capExit
        s0).2 with e2 | dur
    · simp only [pipeline, h1, h2]
      refine ⟨by simp, ?_, by simp⟩
      intro e he
      simp [FS.unlink, FS.createFile, FS.mkdir]
    · rcases h4 : driver_encode_arg flag dur with e4 | pcb
      · simp only [pipeline, h1, h2, h4]
        refine ⟨by simp, by simp, by simp⟩
      · rcases h3 : (encode (recording_filename cd) sec (some pcb)
            (record (recording_filename cd) fr disp g capObs capExit s0).1
            encExit encObs).2 with e3 | u
        · simp only [pipeline, h1, h2, h4, h3]
          refine ⟨by simp, by simp, ?_⟩
          intro e he
          simp [FS.createFile, FS.mkdir]
        · simp only [pipeline, h1, h2, h4, h3]
          refine ⟨?_, by simp, by simp⟩
          intro _ p hp
          simp [FS.rmtree, hp]

/-- Claim C1 witness: on a fully successful run the cache directory and the
capture file beneath it are both gone afterwards. -/
theorem pipeline_cachedir_witness :
    (pipeline ⟨fun _ => false, fun _ => false⟩ "cache" "out" true 25 ":0"
        ⟨0, 0, 1, 1⟩ [] 0 [] [] 0 ⟨Handler.dfl, Handler.dfl⟩).2 =
      Except.ok () ∧
    (pipeline ⟨fun _ => false, fun _ => false⟩ "cache" "out" true 25 ":0"
        ⟨0, 0, 1, 1⟩ [] 0 [] [] 0 ⟨Handler.dfl, Handler.dfl⟩).1.dirs "cache" =
      false ∧
    (pipeline ⟨fun _ => false, fun _ => false⟩ "cache" "out" true 25 ":0"
        ⟨0, 0, 1, 1⟩ [] 0 [] [] 0 ⟨Handler.dfl, Handler.dfl⟩).1.files
      "cache/first.mkv" = false := by
  have h := pipeline_cachedir_amended ⟨fun _ => false, fun _ => false⟩
    "cache" "out" true 25 ":0" ⟨0, 0, 1, 1⟩ [] 0 [] [] 0
    ⟨Handler.dfl, Handler.dfl⟩ _ _ rfl
  refine ⟨by decide, (h.1 (by decide) "cache" (by decide)).2,
    (h.1 (by decide) "cache/first.mkv" (by decide)).1⟩

/-- Claim C2 counterexample: when the encode stage fails (child exit
code 1) the allocated output file still exists after the error propagates —
the driver's `os.unlink(dest.name)` guards only the capture call. -/
theorem pipeline_output_counterexample :
    (pipeline ⟨fun _ => false, fun _ => false⟩ "cache" "out" true 25 ":0"
        ⟨0, 0, 1, 1⟩ [] 0 [] [] 1 ⟨Handler.dfl, Handler.dfl⟩).2 =
      Except.error (PipeErr.encodeFail (EncodeError.calledProcess
        ⟨1, encode_call "cache/first.mkv" []⟩)) ∧
    (pipeline ⟨fun _ => false, fun _ => false⟩ "cache" "out" true 25 ":0"
        ⟨0, 0, 1, 1⟩ [] 0 [] [] 1 ⟨Handler.dfl, Handler.dfl⟩).1.files "out" =
      true := by
  exact ⟨by decide, by decide⟩

/-- Claim C2 (amended): a failure raised by the capture stage deletes the
allocated output handle's backing file before the error propagates; a
failure of the encode stage does not — the output file persists. -/
theorem pipeline_output_amended (fs0 : FS) (cd outP : String) (flag : Bool)
    (fr : Nat) (disp : String) (g : Geometry) (capObs : List String)
    (capExit : Int) (sec : List (String × String)) (encObs : List String)
    (encExit : Int) (s0 : SigState) (fsF : FS) (res : Except PipeErr Unit)
    (dest : String)
    (hdest : open_output_file outP (FS.mkdir fs0 cd).files = Except.ok dest)
    (hrun : pipeline fs0 cd outP flag fr disp g capObs capExit sec encObs
      encExit s0 = (fsF, res)) :
    (∀ e, res = Except.error (PipeErr.capture e) → fsF.files dest = false) ∧
    (∀ e, res = Except.error (PipeErr.encodeFail e) → fsF.files dest = true) := by
  have hf : fsF = (pipeline fs0 cd outP flag fr disp g capObs capExit sec
      encObs encExit s0).1 := by rw [hrun]
  have hr : res = (pipeline fs0 cd outP flag fr disp g capObs capExit sec
      encObs encExit s0).2 := by rw [hrun]
  subst hf
  subst hr
  clear hrun
  rcases h2 : (record (recording_filename cd) fr disp g capObs capExit
      s0).2 with e2 | dur
  · simp only [pipeline, hdest, h2]
    refine ⟨?_, by simp⟩
    intro e he
    simp [FS.unlink]
  · rcases h4 : driver_encode_arg flag dur with e4 | pcb
    · simp only [pipeline, hdest, h2, h4]
      exact ⟨by simp, by simp⟩
    · rcases h3 : (encode (recording_filename cd) sec (some pcb)
          (record (recording_filename cd) fr disp g capObs capExit s0).1
          encExit encObs).2 with e3 | u
      · simp only [pipeline, hdest, h2, h4, h3]
        refine ⟨by simp, ?_⟩
        intro e he
        simp [FS.createFile]
      · simp only [pipeline, hdest, h2, h4, h3]
        exact ⟨by simp, by simp⟩

/-- Claim C2 witness: a capture-stage failure leaves no output file behind. -/
theorem pipeline_output_witness :
    (pipeline ⟨fun _ => false, fun _ => false⟩ "cache" "out" true 25 ":0"
        ⟨0, 0, 1, 1⟩ [] 1 [] [] 0 ⟨Handler.dfl, Handler.dfl⟩).1.files "out" =
      false := by
  have h := pipeline_output_amended ⟨fun _ => false, fun _ => false⟩
    "cache" "out" true 25 ":0" ⟨0, 0, 1, 1⟩ [] 1 [] [] 0
    ⟨Handler.dfl, Handler.dfl⟩ _ _ "out" (by decide) rfl
  exact h.1 ⟨1, record_call "cache/first.mkv" 25 ":0" ⟨0, 0, 1, 1⟩⟩ (by decide)

theorem braceFree_cons {c : Char} {B : List Char}
    (h : braceFree (c :: B) = true) :
    ¬(c = lbrace) ∧ ¬(c = rbrace) ∧ braceFree B = true := by
  simp only [braceFree, List.all_cons, Bool.and_eq_true, Bool.not_eq_true',
    beq_eq_false_iff_ne, ne_eq] at h
  exact ⟨h.1.1, h.1.2, h.2⟩

theorem pyFormatAux_cons_ne (arg : List Char) (c : Char) (rest : List Char)
    (h1 : ¬(c = lbrace)) (h2 : ¬(c = rbrace)) :
    pyFormatAux arg (c :: rest) =
      (pyFormatAux arg rest).map (fun t => c :: t) := by
  cases rest with
  | nil => simp [pyFormatAux, h1, h2]
  | cons c2 rest2 => simp [pyFormatAux, h1, h2]

theorem pyFormatAux_field (arg : List Char) (B : List Char) :
    pyFormatAux arg (lbrace :: rbrace :: B) =
      (pyFormatAux arg B).map (fun t => arg ++ t) := by
  have h1 : ¬(rbrace = lbrace) := by decide
  simp [pyFormatAux, h1]

theorem pyFormatAux_id (arg : List Char) (B : List Char)
    (hB : braceFree B = true) :
    pyFormatAux arg B = some B := by
  induction B with
  | nil => rfl
  | cons c B' ih =>
    obtain ⟨h1, h2, h3⟩ := braceFree_cons hB
    rw [pyFormatAux_cons_ne arg c B' h1 h2, ih h3]
    rfl

theorem pyFormatAux_clean (arg : List Char) (A B : List Char)
    (hA : braceFree A = true) (hB : braceFree B = true) :
    pyFormatAux arg (A ++ lbrace :: rbrace :: B) = some (A ++ arg ++ B) := by
  induction A with
  | nil =>
    rw [List.nil_append, pyFormatAux_field arg B, pyFormatAux_id arg B hB]
    rfl
  | cons c A' ih =>
    obtain ⟨h1, h2, h3⟩ := braceFree_cons hA
    rw [List.cons_append, pyFormatAux_cons_ne arg c _ h1 h2, ih h3]
    rfl

theorem pyFormat_clean (A B : List Char) (i : Nat)
    (hA : braceFree A = true) (hB : braceFree B = true) :
    pyFormat (String.mk (A ++ lbrace :: rbrace :: B)) i =
      some (slotPath A B i) := by
  simp only [pyFormat, slotPath]
  have : (String.mk (A ++ lbrace :: rbrace :: B)).toList =
      A ++ lbrace :: rbrace :: B := rfl
  rw [this, pyFormatAux_clean _ _ _ hA hB]
  rfl

theorem alloc_try_clean (A B : List Char) (fs : String → Bool)
    (hA : braceFree A = true) (hB : braceFree B = true) (l : List Nat) :
    alloc_try (String.mk (A ++ lbrace :: rbrace :: B)) fs l =
      match l.find? (fun i => !fs (slotPath A B i)) with
      | some i => Except.ok (slotPath A B i)
      | none => Except.error (AllocError.fileExists
          (String.mk (A ++ lbrace :: rbrace :: B))) := by
  induction l with
  | nil => rfl
  | cons i rest ih =>
    rw [List.find?_cons]
    by_cases hfs : fs (slotPath A B i)
    · have : (!fs (slotPath A B i)) = false := by simp [hfs]
      simp only [alloc_try, pyFormat_clean A B i hA hB, if_pos hfs, ih, this]
    · have : (!fs (slotPath A B i)) = true := by simp [hfs]
      simp only [alloc_try, pyFormat_clean A B i hA hB, if_neg hfs, this]

/-- Claim C8 counterexample: the argument `"a\x7b\x7b"` (Python source
`"a"` followed by a doubled opening brace, i.e. an escaped literal brace)
contains no substitution placeholder, yet on an empty filesystem the
allocator does not open that path: it takes the pattern branch — the code
tests for a brace character, not for a placeholder — and `str.format`
collapses the escape, so the file actually opened is `"a\x7b"`. -/
theorem open_output_counterexample :
    open_output_file "a\x7b\x7b" (fun _ => false) = Except.ok "a\x7b" ∧
    "a\x7b" ≠ "a\x7b\x7b" := by
  exact ⟨by decide, by decide⟩

/-- Claim C8 (amended): if the argument contains no opening-brace
character, the allocator exclusive-creates exactly that path, failing
precisely when it already exists; if the argument is a pattern built of a
single empty replacement field between brace-free pieces, it returns the
slot of the first index in the ascending enumeration 0..999 whose
substituted path does not exist, and raises the exhaustion error (a
`FileExistsError` carrying the whole pattern) when all 1000 slots are
taken. -/
theorem open_output_amended (pattern : String) (fs : String → Bool)
    (A B : List Char) :
    (pattern.toList.contains lbrace = false →
      open_output_file pattern fs =
        if fs pattern then Except.error (AllocError.fileExists pattern)
        else Except.ok pattern) ∧
    (braceFree A = true → braceFree B = true →
      open_output_file (String.mk (A ++ lbrace :: rbrace :: B)) fs =
        match (List.range 1000).find? (fun i => !fs (slotPath A B i)) with
        | some i => Except.ok (slotPath A B i)
        | none => Except.error (AllocError.fileExists
            (String.mk (A ++ lbrace :: rbrace :: B)))) := by
  constructor
  · intro h
    simp only [open_output_file, h, Bool.not_false, if_pos]
  · intro hA hB
    have hc : ((String.mk (A ++ lbrace :: rbrace :: B)).toList.contains
        lbrace) = true := by
      have hm : lbrace ∈ (String.mk (A ++ lbrace :: rbrace :: B)).toList := by
        show lbrace ∈ A ++ lbrace :: rbrace :: B
        simp
      exact List.elem_eq_true_of_mem hm
    simp only [open_output_file, hc, Bool.not_true, Bool.false_eq_true,
      if_false]
    exact alloc_try_clean A B fs hA hB (List.range 1000)

/-- Claim C8 witness: with `out-0.ogv`, `out-1.ogv`, `out-2.ogv` already
present, the pattern `out-\x7b\x7d.ogv` allocates `out-3.ogv`; and a plain
path that already exists fails, while a fresh plain path is opened
exactly. -/
theorem open_output_witness :
    open_output_file (String.mk ("out-".toList ++ lbrace :: rbrace ::
        ".ogv".toList))
      (fun p => p == "out-0.ogv" || p == "out-1.ogv" || p == "out-2.ogv") =
      Except.ok "out-3.ogv" ∧
    open_output_file "plain.ogv" (fun p => p == "plain.ogv") =
      Except.error (AllocError.fileExists "plain.ogv") ∧
    open_output_file "plain.ogv" (fun _ => false) = Except.ok "plain.ogv" := by
  refine ⟨?_, ?_, ?_⟩
  · have h := (open_output_amended
      (String.mk ("out-".toList ++ lbrace :: rbrace :: ".ogv".toList))
      (fun p => p == "out-0.ogv" || p == "out-1.ogv" || p == "out-2.ogv")
      "out-".toList ".ogv".toList).2 (by decide) (by decide)
    rw [h]
    decide
  · have h := (open_output_amended "plain.ogv"
      (fun p => p == "plain.ogv") [] []).1 (by decide)
    rw [h]
    decide
  · have h := (open_output_amended "plain.ogv" (fun _ => false) [] []).1
      (by decide)
    rw [h]
    decide

theorem matchAt_eq_some {cs : List Char} {h m s cc : Nat} :
    matchAt cs = some (h, m, s, cc) ↔
      ∃ (a1 a2 b1 b2 c1 c2 d1 d2 sep : Char) (suf : List Char),
        cs = 't' :: 'i' :: 'm' :: 'e' :: '=' :: a1 :: a2 :: ':' :: b1 :: b2 ::
          ':' :: c1 :: c2 :: sep :: d1 :: d2 :: suf ∧
        is_digit a1 = true ∧ is_digit a2 = true ∧ is_digit b1 = true ∧
        is_digit b2 = true ∧ is_digit c1 = true ∧ is_digit c2 = true ∧
        is_digit d1 = true ∧ is_digit d2 = true ∧ ¬(sep = newlineCh) ∧
        digitVal a1 a2 = h ∧ digitVal b1 b2 = m ∧ digitVal c1 c2 = s ∧
        digitVal d1 d2 = cc := by
  constructor
  · intro hm0
    unfold matchAt at hm0
    split at hm0
    · rename_i a1 a2 b1 b2 c1 c2 sep d1 d2 suf
      split at hm0
      · rename_i hcond
        simp only [Bool.and_eq_true, bne_iff_ne, ne_eq] at hcond
        obtain ⟨⟨⟨⟨⟨⟨⟨⟨h1, h2⟩, h3⟩, h4⟩, h5⟩, h6⟩, h7⟩, h8⟩, h9⟩ := hcond
        obtain ⟨hh, hmm, hss, hcc⟩ : digitVal a1 a2 = h ∧ digitVal b1 b2 = m ∧
            digitVal c1 c2 = s ∧ digitVal d1 d2 = cc := by
          injection hm0 with hpair
          exact ⟨congrArg Prod.fst hpair,
            congrArg Prod.fst (congrArg Prod.snd hpair),
            congrArg Prod.fst (congrArg Prod.snd (congrArg Prod.snd hpair)),
            congrArg Prod.snd (congrArg Prod.snd (congrArg Prod.snd hpair))⟩
        exact ⟨a1, a2, b1, b2, c1, c2, d1, d2, sep, suf, rfl, h1, h2, h3, h4,
          h5, h6, h7, h8, h9, hh, hmm, hss, hcc⟩
      · exact Option.noConfusion hm0
    · exact Option.noConfusion hm0
  · rintro ⟨a1, a2, b1, b2, c1, c2, d1, d2, sep, suf, rfl, h1, h2, h3, h4, h5,
      h6, h7, h8, h9, hh, hmm, hss, hcc⟩
    simp [matchAt, h1, h2, h3, h4, h5, h6, h7, h8, h9, hh, hmm, hss, hcc]

theorem searchTime_eq_none {cs : List Char} :
    searchTime cs = none ↔ ∀ i, matchAt (cs.drop i) = none := by
  induction cs with
  | nil =>
    constructor
    · intro _ i
      rw [List.drop_nil]
      rfl
    · intro _
      rfl
  | cons c rest ih =>
    cases hm : matchAt (c :: rest) with
    | some g =>
      simp only [searchTime, hm]
      constructor
      · intro h0
        exact Option.noConfusion h0
      · intro hall
        have h0 := hall 0
        rw [List.drop_zero, hm] at h0
        exact Option.noConfusion h0
    | none =>
      simp only [searchTime, hm]
      rw [ih]
      constructor
      · intro hrest i
        cases i with
        | zero => simpa using hm
        | succ j => simpa using hrest j
      · intro hall j
        simpa using hall (j + 1)

theorem searchTime_eq_some {cs : List Char} {g : Nat × Nat × Nat × Nat} :
    searchTime cs = some g ↔
      ∃ i, matchAt (cs.drop i) = some g ∧
        ∀ j, j < i → matchAt (cs.drop j) = none := by
  induction cs with
  | nil =>
    constructor
    · intro h0
      exact Option.noConfusion h0
    · rintro ⟨i, hi, _⟩
      rw [List.drop_nil] at hi
      exact Option.noConfusion hi
  | cons c rest ih =>
    cases hm : matchAt (c :: rest) with
    | some g2 =>
      simp only [searchTime, hm, Option.some.injEq]
      constructor
      · rintro rfl
        exact ⟨0, by simpa using hm, fun j hj => absurd hj (Nat.not_lt_zero j)⟩
      · rintro ⟨i, hi, hlt⟩
        cases i with
        | zero =>
          rw [List.drop_zero, hm] at hi
          injection hi
        | succ j =>
          have h0 := hlt 0 (Nat.succ_pos j)
          rw [List.drop_zero, hm] at h0
          exact Option.noConfusion h0
    | none =>
      simp only [searchTime, hm]
      rw [ih]
      constructor
      · rintro ⟨i, hi, hlt⟩
        refine ⟨i + 1, by simpa using hi, ?_⟩
        intro j hj
        cases j with
        | zero => simpa using hm
        | succ k => simpa using hlt k (by omega)
      · rintro ⟨i, hi, hlt⟩
        cases i with
        | zero =>
          rw [List.drop_zero, hm] at hi
          exact Option.noConfusion hi
        | succ k =>
          refine ⟨k, by simpa using hi, ?_⟩
          intro j hj
          simpa using hlt (j + 1) (by omega)

/-- Claim C4 (amended): the parser never fails and returns, for every line,
exactly the value of the leftmost occurrence of the pattern
`time=HH:MM:SS<c>CC` where `<c>` is any single non-newline character — not
only the literal dot, because the dot of the source regex is unescaped —
namely `timedelta(H, M, S, CC*10000µs)` for that occurrence's two-digit
groups; it returns `none` exactly when no position of the line matches. -/
theorem extract_time_amended (line : String) :
    (extract_ffmpeg_time line = none ↔
      ∀ i, matchAt (line.toList.drop i) = none) ∧
    (∀ d, extract_ffmpeg_time line = some d ↔
      ∃ i h m s cc, matchAt (line.toList.drop i) = some (h, m, s, cc) ∧
        (∀ j, j < i → matchAt (line.toList.drop j) = none) ∧
        d = timedelta h m s (cc * 10000)) ∧
    (∀ (cs : List Char) (h m s cc : Nat),
      matchAt cs = some (h, m, s, cc) ↔
        ∃ (a1 a2 b1 b2 c1 c2 d1 d2 sep : Char) (suf : List Char),
          cs = 't' :: 'i' :: 'm' :: 'e' :: '=' :: a1 :: a2 :: ':' :: b1 ::
            b2 :: ':' :: c1 :: c2 :: sep :: d1 :: d2 :: suf ∧
          is_digit a1 = true ∧ is_digit a2 = true ∧ is_digit b1 = true ∧
          is_digit b2 = true ∧ is_digit c1 = true ∧ is_digit c2 = true ∧
          is_digit d1 = true ∧ is_digit d2 = true ∧ ¬(sep = newlineCh) ∧
          digitVal a1 a2 = h ∧ digitVal b1 b2 = m ∧ digitVal c1 c2 = s ∧
          digitVal d1 d2 = cc) := by
  refine ⟨?_, ?_, fun cs h m s cc => matchAt_eq_some⟩
  · rw [extract_ffmpeg_time, Option.map_eq_none', searchTime_eq_none]
  · intro d
    rw [extract_ffmpeg_time]
    constructor
    · intro hd
      obtain ⟨g, hg, rfl⟩ := Option.map_eq_some'.mp hd
      obtain ⟨i, hi, hlt⟩ := searchTime_eq_some.mp hg
      obtain ⟨h, m, s, cc⟩ := g
      exact ⟨i, h, m, s, cc, hi, hlt, rfl⟩
    · rintro ⟨i, h, m, s, cc, hi, hlt, rfl⟩
      rw [searchTime_eq_some.mpr ⟨i, hi, hlt⟩]
      rfl

/-- Claim C4 counterexample: the line `time=00:00:01x23` does not contain
the fixed literal-dot pattern `time=HH:MM:SS.CC`, yet the parser returns
`timedelta(0, 0, 1, 230000µs)` rather than `none`, because the unescaped
dot of the source regex also matches the letter `x`. -/
theorem extract_time_counterexample :
    containsFixedStamp "time=00:00:01x23" = false ∧
    extract_ffmpeg_time "time=00:00:01x23" =
      some (timedelta 0 0 1 230000) :=
  ⟨by decide, by decide⟩

end XRecord
